import Mathlib

/-!
Verification development for the payment/channel RPC server core
(`rpcserver.go`).  The Go code is shallowly embedded: byte slices become
`List Nat`, fixed-size byte arrays become lists of fixed length produced by
the `copy`-semantics helper `copyFill`, machine integers become `Nat`/`Int`,
fallible operations return `Except String`.
-/

deriving instance DecidableEq for Except

/-- Go `copy(dst[:], src)` into a zero-initialised fixed array of `n` bytes:
the first `min n src.length` bytes come from `src`, the rest stay zero. -/
def copyFill (n : Nat) (src : List Nat) : List Nat :=
  src.take n ++ List.replicate (n - src.length) 0

/-- Value of one hexadecimal digit, `none` for a non-hex character. -/
def hexVal (c : Char) : Option Nat :=
  if '0' ≤ c ∧ c ≤ '9' then some (c.toNat - 48)
  else if 'a' ≤ c ∧ c ≤ 'f' then some (c.toNat - 87)
  else if 'A' ≤ c ∧ c ≤ 'F' then some (c.toNat - 55)
  else none

/-- Core of Go stdlib `hex.DecodeString`: decodes pairs of hex digits. -/
def hexDecodeAux : List Char → Except String (List Nat)
  | [] => .ok []
  | [_] => .error "encoding/hex: odd length hex string"
  | a :: b :: rest =>
    match hexVal a, hexVal b with
    | some x, some y =>
      match hexDecodeAux rest with
      | .ok t => .ok ((16 * x + y) :: t)
      | .error e => .error e
    | _, _ => .error "encoding/hex: invalid byte"

/-- Go stdlib `hex.DecodeString` on a string. -/
def hexDecode (s : String) : Except String (List Nat) :=
  hexDecodeAux s.data

/-- Modelled from the spec: `lnrpc.UnmarshallAmt` (not under `src/`) takes the
manual whole-unit (`Amt`, atoms) and sub-unit (`AmtMAtoms`, milli-atoms)
fields; exactly one of the two forms may be set and conflicting values are
rejected; the result is in milli-atoms. -/
def unmarshallAmt (amt amtMAtoms : Nat) : Except String Nat :=
  if amt ≠ 0 ∧ amtMAtoms ≠ 0 ∧ amt * 1000 ≠ amtMAtoms then
    .error "amt and amt_matoms cannot both be set"
  else if amtMAtoms ≠ 0 then .ok amtMAtoms
  else .ok (amt * 1000)

/-- Fee-limit specification of a request: an explicit cap or a percentage. -/
inductive FeeLimitSpec where
  | fixed (mAtoms : Nat)
  | percent (p : Nat)
  deriving DecidableEq

/-- Modelled from the spec: `lnrpc.CalculateFeeLimit` (not under `src/`)
computes the fee limit from either an explicit cap or a
percentage-of-amount, defaulting to the payment amount itself. -/
def calculateFeeLimit (fl : Option FeeLimitSpec) (amt : Nat) : Nat :=
  match fl with
  | some (.fixed m) => m
  | some (.percent p) => amt * p / 100
  | none => amt

/-- Modelled from the spec: `routerrpc.ValidateCLTVLimit` (not under `src/`)
takes the CLTV limit from the request if set, otherwise uses the maximum;
a requested limit above the maximum is rejected. -/
def validateCLTVLimit (cltvLimit maxLimit : Nat) : Except String Nat :=
  if cltvLimit = 0 then .ok maxLimit
  else if maxLimit < cltvLimit then .error "cltv limit exceeds max"
  else .ok cltvLimit

/-- Modelled from the spec: `record.CustomSet.Validate` (not under `src/`)
accepts a set of custom key/value records only when every key lies in the
custom TLV range (at least 65536). -/
def customRecordsValidate (recs : List (Nat × List Nat)) : Except String Unit :=
  if recs.all (fun r => 65536 ≤ r.1) then .ok ()
  else .error "custom records entry with TLV type below minimum"

/-- Modelled from the spec: `route.NewVertexFromBytes` (not under `src/`)
requires exactly a 33-byte compressed public key. -/
def newVertexFromBytes (b : List Nat) : Except String (List Nat) :=
  if b.length = 33 then .ok (copyFill 33 b)
  else .error "invalid vertex length"

/-- Modelled from the spec: `zpay32.DefaultFinalCLTVDelta` (not under
`src/`), the network default final-CLTV delta used when the manual field is
unset.  The concrete value is not load-bearing for any claim. -/
def defaultFinalCLTVDelta : Nat := 9

/-- The `fmt.Errorf` message of the maximum-payment-size check
(`rpcserver.go:3463`). -/
def tooLargeMsg (mat maxPayment : Nat) : String :=
  "payment of " ++ toString mat ++ " is too large, max payment allowed is "
    ++ toString maxPayment

/-- The `fmt.Errorf` message of the capacity shortfall diagnostic
(`rpcserver.go:3571`). -/
def notEnoughCapMsg (missing : Int) (chanID : Nat) : String :=
  "not enough outbound capacity (missing " ++ toString missing
    ++ " atoms in channel " ++ toString chanID ++ ")"

/-- Decoded invoice (`zpay32.Invoice`), as consumed by
`extractPaymentIntent`. -/
structure PayReq where
  paymentHash : List Nat
  milliAt : Option Nat
  destination : List Nat
  minFinalCLTVExpiry : Nat
  routeHints : List Nat
  features : Option (List Nat)
  paymentAddr : Option (List Nat)

/-- The parts of the rpc server state read by `extractPaymentIntent`:
own identity, configured limits, and the external invoice decoder
(modelled from the spec as an abstract collaborator: `zpay32.Decode` and
`routerrpc.ValidatePayReqExpiry` are not under `src/`). -/
structure ServerCfg where
  selfNode : List Nat
  maxOutgoingCltvExpiry : Nat
  maxPaymentMAtoms : Nat
  decodePayReq : String → Except String PayReq
  payReqExpired : PayReq → Bool

/-- Model of `rpcPaymentRequest` (`lnrpc.SendRequest` plus an optional pre-built
route, modelled by an opaque route identifier). -/
structure SendReq where
  route : Option Nat
  paymentHash : List Nat
  paymentHashString : String
  ignoreMaxOutboundAmt : Bool
  outgoingChanId : Nat
  lastHopPubkey : List Nat
  cltvLimit : Nat
  destCustomRecords : List (Nat × List Nat)
  allowSelfPayment : Bool
  paymentRequest : String
  amt : Nat
  amtMAtoms : Nat
  feeLimit : Option FeeLimitSpec
  dest : List Nat
  destString : String
  finalCltvDelta : Nat
  destFeatures : List Nat
  deriving DecidableEq

/-- Model of `rpcPaymentIntent` (`rpcserver.go:3231`). -/
structure Intent where
  mat : Nat
  feeLimit : Nat
  cltvLimit : Nat
  dest : List Nat
  rHash : List Nat
  cltvDelta : Nat
  routeHints : List Nat
  outgoingChannelID : Option Nat
  lastHop : Option (List Nat)
  ignoreMaxOutboundAmt : Bool
  destFeatures : Option (List Nat)
  paymentAddr : Option (List Nat)
  payReq : String
  destCustomRecords : List (Nat × List Nat)
  route : Option Nat
  deriving DecidableEq

/-- The zero value of `rpcPaymentIntent`. -/
def zeroIntent : Intent where
  mat := 0
  feeLimit := 0
  cltvLimit := 0
  dest := List.replicate 33 0
  rHash := List.replicate 32 0
  cltvDelta := 0
  routeHints := []
  outgoingChannelID := none
  lastHop := none
  ignoreMaxOutboundAmt := false
  destFeatures := none
  paymentAddr := none
  payReq := ""
  destCustomRecords := []
  route := none

/-- Model of `routerrpc.UnmarshalFeatures` on the manual `DestFeatures` field,
modelled from the spec as a total mapping of the raw feature bits. -/
def unmarshalFeatures (bits : List Nat) : Option (List Nat) :=
  if bits.isEmpty then none else some bits

/-- Amount resolution of the invoice branch (`rpcserver.go:3350-3366`): the
invoice amount when present, otherwise the caller-supplied amount, which
must be nonzero. -/
def invoiceAmt (pr : PayReq) (req : SendReq) : Except String Nat :=
  match pr.milliAt with
  | none =>
    match unmarshallAmt req.amt req.amtMAtoms with
    | .error e => .error e
    | .ok a =>
      if a = 0 then
        .error "amount must be specified when paying a zero amount invoice"
      else .ok a
  | some a => .ok a

/-- Invoice branch of `extractPaymentIntent` (`rpcserver.go:3328-3387`). -/
def extractInvoiceIntent (st : ServerCfg) (req : SendReq) (pi1 : Intent) :
    Except String Intent :=
  match st.decodePayReq req.paymentRequest with
  | .error e => .error e
  | .ok pr =>
    if st.payReqExpired pr then .error "payment request has expired"
    else
      match invoiceAmt pr req with
      | .error e => .error e
      | .ok amt =>
        let i : Intent :=
          { pi1 with
            mat := amt
            feeLimit := calculateFeeLimit req.feeLimit amt
            rHash := copyFill 32 pr.paymentHash
            dest := copyFill 33 pr.destination
            cltvDelta := pr.minFinalCLTVExpiry % 65536
            routeHints := pr.routeHints
            payReq := req.paymentRequest
            destFeatures := pr.features
            paymentAddr := pr.paymentAddr }
        if req.allowSelfPayment then .ok i
        else if i.dest = st.selfNode then .error "self-payments not allowed"
        else .ok i

/-- Manual branch of `extractPaymentIntent` (`rpcserver.go:3389-3469`). -/
def extractManualIntent (st : ServerCfg) (req : SendReq) (pi1 : Intent) :
    Except String Intent :=
  match ((if req.dest.length ≠ 0 then .ok req.dest else hexDecode req.destString) :
      Except String (List Nat)) with
  | .error e => .error e
  | .ok pubBytes =>
    if pubBytes.length ≠ 33 then .error "invalid key length"
    else
      let dest := copyFill 33 pubBytes
      if ¬req.allowSelfPayment ∧ dest = st.selfNode then
        .error "self-payments not allowed"
      else
        match unmarshallAmt req.amt req.amtMAtoms with
        | .error e => .error e
        | .ok a =>
          let fl := calculateFeeLimit req.feeLimit a
          let cd := if req.finalCltvDelta ≠ 0 then req.finalCltvDelta % 65536
                    else defaultFinalCLTVDelta
          match ((if req.paymentHashString ≠ "" then hexDecode req.paymentHashString
                  else .ok req.paymentHash) : Except String (List Nat)) with
          | .error e => .error e
          | .ok hashBytes =>
            let i : Intent :=
              { pi1 with
                mat := a
                feeLimit := fl
                dest := dest
                cltvDelta := cd
                rHash := copyFill 32 hashBytes
                destFeatures := unmarshalFeatures req.destFeatures }
            if st.maxPaymentMAtoms < a then
              .error (tooLargeMsg a st.maxPaymentMAtoms)
            else .ok i

/-- Shared prefix of the non-route branches of `extractPaymentIntent`
(`rpcserver.go:3281-3326`): outgoing channel restriction, last-hop
restriction, CLTV limit, custom records; then dispatch on invoice vs
manual mode. -/
def extractNonRoute (st : ServerCfg) (req : SendReq) (pi0 : Intent) :
    Except String Intent :=
  let pi1 := { pi0 with
    outgoingChannelID := if req.outgoingChanId ≠ 0 then some req.outgoingChanId else none }
  match ((if 0 < req.lastHopPubkey.length then
            match newVertexFromBytes req.lastHopPubkey with
            | .error e => .error e
            | .ok v => .ok (some v)
          else .ok none) : Except String (Option (List Nat))) with
  | .error e => .error e
  | .ok lh =>
    match validateCLTVLimit req.cltvLimit st.maxOutgoingCltvExpiry with
    | .error e => .error e
    | .ok cl =>
      match customRecordsValidate req.destCustomRecords with
      | .error e => .error e
      | .ok _ =>
        let pi2 := { pi1 with
          lastHop := lh
          cltvLimit := cl
          destCustomRecords := req.destCustomRecords }
        if req.paymentRequest ≠ "" then extractInvoiceIntent st req pi2
        else extractManualIntent st req pi2

/-- Model of `extractPaymentIntent` (`rpcserver.go:3255-3470`). -/
def extractPaymentIntent (st : ServerCfg) (req : SendReq) :
    Except String Intent :=
  let pi0 := { zeroIntent with ignoreMaxOutboundAmt := req.ignoreMaxOutboundAmt }
  match req.route with
  | some rt =>
    if req.paymentHashString ≠ "" then
      match hexDecode req.paymentHashString with
      | .error e => .error e
      | .ok bytes => .ok { pi0 with rHash := copyFill 32 bytes, route := some rt }
    else .ok { pi0 with rHash := copyFill 32 req.paymentHash, route := some rt }
  | none => extractNonRoute st req pi0

/-- Outcome of one inbound message in the `sendPayment` reader loop
(`rpcserver.go:3715-3739`): a resolution failure is answered with a
per-payment error response and never dispatched; a resolved intent is
handed to the dispatch stage (and hence the routing engine). -/
inductive PaymentReadOutcome where
  | errorResponse (e : String)
  | dispatched (i : Intent)
  deriving DecidableEq

/-- Per-message handling of the reader loop in `sendPayment`. -/
def handlePaymentRequest (st : ServerCfg) (req : SendReq) : PaymentReadOutcome :=
  match extractPaymentIntent st req with
  | .error e => .errorResponse e
  | .ok i => .dispatched i

/-- One open channel as seen by `checkCanSendPayment`
(`rpcserver.go:3518-3563`): liveness of the remote peer (`FindPeer`),
presence of a forwarding link (`GetLink`), its forwarding eligibility,
the local commitment balance, the local channel reserve, and the
identifier the channel graph returns for it (`0` when the lookup fails). -/
structure OpenChannel where
  peerFound : Bool
  linkFound : Bool
  eligibleToForward : Bool
  localBalanceMAtoms : Nat
  chanReserveAtoms : Nat
  graphChanID : Nat
  deriving DecidableEq

/-- The live node state read by `checkCanSendPayment`: the open channel
list and the estimated on-wire fee for one additional HTLC
(`relayFee.FeeForSize(input.HTLCOutputSize)`, an external fee-estimator
quantity). -/
structure SendEnv where
  openChannels : List OpenChannel
  htlcFeeAtoms : Nat

/-- A channel passes the liveness gates of the capacity loop: connected
peer, registered link, link eligible to forward. -/
def chanEligible (c : OpenChannel) : Bool :=
  c.peerFound && c.linkFound && c.eligibleToForward

/-- Usable outbound capacity of a channel
(`rpcserver.go:3549-3550`): local balance in atoms minus the local
channel reserve; may be negative. -/
def chanCapacity (c : OpenChannel) : Int :=
  ((c.localBalanceMAtoms / 1000 : Nat) : Int) - c.chanReserveAtoms

/-- The amount the preflight checks against (`rpcserver.go:3511`): the
payment amount in atoms plus the per-HTLC fee estimate. -/
def paymentCheckAmt (env : SendEnv) (p : Intent) : Int :=
  ((p.mat / 1000 : Nat) : Int) + env.htlcFeeAtoms

/-- The channel loop of `checkCanSendPayment` (`rpcserver.go:3518-3572`),
threading the largest-capacity tracking pair `(maxChanCap, maxChanID)`. -/
def checkLoop (amt : Int) : List OpenChannel → Int → Nat → Except String Unit
  | [], _, 0 => .error "no online channels found"
  | [], maxCap, maxID => .error (notEnoughCapMsg (amt - maxCap) maxID)
  | c :: rest, maxCap, maxID =>
    if ¬chanEligible c then checkLoop amt rest maxCap maxID
    else if amt ≤ chanCapacity c then .ok ()
    else if maxCap < chanCapacity c then checkLoop amt rest (chanCapacity c) c.graphChanID
    else checkLoop amt rest maxCap maxID

/-- Model of `checkCanSendPayment` (`rpcserver.go:3481-3573`). -/
def checkCanSendPayment (env : SendEnv) (p : Intent) : Except String Unit :=
  if p.ignoreMaxOutboundAmt then .ok ()
  else if env.openChannels.isEmpty then .error "no open channels"
  else checkLoop (paymentCheckAmt env p) env.openChannels 0 0

/-- The largest-capacity tracking of the loop in isolation
(`rpcserver.go:3560-3563`): fold over the channels, recording capacity and
graph identifier of each eligible channel that strictly beats the maximum
seen so far. -/
def trackFold : List OpenChannel → Int × Nat → Int × Nat
  | [], acc => acc
  | c :: rest, (mc, mid) =>
    if chanEligible c ∧ mc < chanCapacity c then
      trackFold rest (chanCapacity c, c.graphChanID)
    else trackFold rest (mc, mid)

/-- Maximum usable capacity over the eligible channels, floored at 0. -/
def maxEligCap (l : List OpenChannel) : Int :=
  ((l.filter (fun c => chanEligible c)).map chanCapacity).foldl max 0

/-- Internal close updates flowing on `updateChan` in `CloseChannel`:
`pendingUpdate` and `channelCloseUpdate` (`rpcserver.go:1853-1866`). -/
inductive CloseUpd where
  | pending (txid : List Nat) (outputIndex : Nat)
  | chanClose (closingTxid : List Nat) (success : Bool)
  deriving DecidableEq

/-- Wire-level close updates sent on the client stream
(`lnrpc.CloseStatusUpdate`). -/
inductive CloseStatusUpdate where
  | closePending (txid : List Nat) (outputIndex : Nat)
  | chanCloseU (closingTxid : List Nat)
  deriving DecidableEq

/-- Model of `createRPCCloseUpdate` (`rpcserver.go:1972-1991`). -/
def createRPCCloseUpdate : CloseUpd → CloseStatusUpdate
  | .pending t i => .closePending t i
  | .chanClose t _ => .chanCloseU t

/-- One step of the environment as observed by the `CloseChannel` relay
loop select (`rpcserver.go:1932-1967`): an update is ready and the stream
send succeeds or fails, the error feed fires, the process-wide quit fires,
or the background confirmation goroutine enqueues the terminal close
update (`rpcserver.go:1859-1867`). -/
inductive CloseRelayEv where
  | updReady (sendOk : Bool)
  | errArrives (e : String)
  | quitFires
  | confirmCallback
  deriving DecidableEq

/-- How the relay loop exited. -/
inductive RelayExit where
  | exitErr (e : String)
  | exitSendErr
  | exitTerminal
  | exitQuit
  | exhausted
  deriving DecidableEq

/-- The relay loop of `CloseChannel` (`rpcserver.go:1932-1967`) over an
explicit event trace: `updateChan` is a FIFO queue, `confirmCallback`
appends the terminal close update for `ctxid` (as the force-close
confirmation goroutine does), a received update is mapped through
`createRPCCloseUpdate` and sent on the stream, and a terminal
`channelCloseUpdate` breaks the loop.  An `updReady` event with an empty
queue cannot fire and is skipped. -/
def closeRelayLoop (ctxid : List Nat) :
    List CloseRelayEv → List CloseUpd → List CloseStatusUpdate →
    List CloseStatusUpdate × RelayExit
  | [], _, sent => (sent, .exhausted)
  | e :: rest, queue, sent =>
    match e with
    | .errArrives msg => (sent, .exitErr msg)
    | .quitFires => (sent, .exitQuit)
    | .confirmCallback =>
      closeRelayLoop ctxid rest (queue ++ [.chanClose ctxid true]) sent
    | .updReady sendOk =>
      match queue with
      | [] => closeRelayLoop ctxid rest [] sent
      | u :: q =>
        if sendOk then
          match u with
          | .chanClose t s => (sent ++ [createRPCCloseUpdate (.chanClose t s)], .exitTerminal)
          | .pending t i =>
            closeRelayLoop ctxid rest q (sent ++ [createRPCCloseUpdate (.pending t i)])
        else (sent, .exitSendErr)

/-- The value `CloseChannel` returns for each exit of the relay loop:
`some (some e)` is an error return, `some none` is a nil return, `none`
means the loop never returned (trace exhausted while still blocked). -/
def relayReturn : RelayExit → Option (Option String)
  | .exitErr e => some (some e)
  | .exitSendErr => some (some "stream send failed")
  | .exitTerminal => some none
  | .exitQuit => some none
  | .exhausted => none

/-- The force-close relay (`rpcserver.go:1852-1867` followed by the loop):
`updateChan` starts holding the pending update that carries the closing
transaction id, and the confirmation goroutine later appends the terminal
close update. -/
def forceCloseRelay (ctxid : List Nat) (events : List CloseRelayEv) :
    List CloseStatusUpdate × RelayExit :=
  closeRelayLoop ctxid events [.pending ctxid 0] []

/-- Model of `lnrpc.ChannelPoint` as built by `OpenChannelSync`. -/
structure ChannelPoint where
  fundingTxidBytes : List Nat
  outputIndex : Nat
  deriving DecidableEq

/-- The event the `OpenChannelSync` select (`rpcserver.go:1693-1720`)
wakes up on: the error feed, the first funding update (always the
channel-pending update), or the process-wide quit signal. -/
inductive OpenSyncEv where
  | errFeed (e : String)
  | firstUpdate (txid : List Nat) (outputIndex : Nat)
  | quitFired
  deriving DecidableEq

/-- The select of `OpenChannelSync` (`rpcserver.go:1693-1720`): result is
the `(ChannelPoint, error)` pair returned to the caller. -/
def openChannelSyncSelect : OpenSyncEv → Option ChannelPoint × Option String
  | .errFeed e => (none, some e)
  | .firstUpdate txid idx => (some ⟨txid, idx⟩, none)
  | .quitFired => (none, none)

/-- Value of `time.Second` in nanoseconds. -/
def timeSecond : Nat := 1000000000

/-- Model of `defaultAcceptorTimeout` (`rpcserver.go:86`): `15 * time.Second`. -/
def defaultAcceptorTimeout : Nat := 15 * timeSecond

/-- Which arm of the first `demultiplexReq` select
(`rpcserver.go:5717-5727`) fires: the request is enqueued to the
negotiator loop, the timeout fires, the per-stream quit closes, or the
process-wide quit closes. -/
inductive EnqueueEv where
  | enqueued
  | timedOut
  | streamDone
  | serverQuit
  deriving DecidableEq

/-- Which arm of the second `demultiplexReq` select
(`rpcserver.go:5731-5742`) fires: a correlated client reply arrives on the
response slot, the (shared) timeout fires, the per-stream quit closes, or
the process-wide quit closes. -/
inductive AwaitEv where
  | replied (accept : Bool)
  | timedOut
  | streamDone
  | serverQuit
  deriving DecidableEq

/-- Model of `demultiplexReq` (`rpcserver.go:5705-5743`) over the first-firing arm
of each of its two selects.  The await event is only consulted when the
enqueue select took the `enqueued` arm; every non-reply arm returns the
reject decision `false`. -/
def demultiplexReq (e1 : EnqueueEv) (e2 : AwaitEv) : Bool :=
  match e1 with
  | .enqueued =>
    match e2 with
    | .replied accept => accept
    | .timedOut => false
    | .streamDone => false
    | .serverQuit => false
  | .timedOut => false
  | .streamDone => false
  | .serverQuit => false

lemma copyFill_length (n : Nat) (src : List Nat) : (copyFill n src).length = n := by
  simp [copyFill]
  omega

lemma hexDecodeAux_error_msgs : ∀ (l : List Char) (e : String),
    hexDecodeAux l = .error e →
    e = "encoding/hex: odd length hex string" ∨ e = "encoding/hex: invalid byte"
  | [], e, h => by simp [hexDecodeAux] at h
  | [c], e, h => by
    simp only [hexDecodeAux, Except.error.injEq] at h
    exact Or.inl h.symm
  | a :: b :: rest, e, h => by
    simp only [hexDecodeAux] at h
    cases ha : hexVal a with
    | none => simp [ha] at h; exact Or.inr h.symm
    | some x =>
      cases hb : hexVal b with
      | none => simp [ha, hb] at h; exact Or.inr h.symm
      | some y =>
        simp only [ha, hb] at h
        cases hr : hexDecodeAux rest with
        | ok t => simp [hr] at h
        | error e2 =>
          simp only [hr, Except.error.injEq] at h
          exact h ▸ hexDecodeAux_error_msgs rest e2 hr

lemma hexDecode_error_msgs (s : String) (e : String) (h : hexDecode s = .error e) :
    e = "encoding/hex: odd length hex string" ∨ e = "encoding/hex: invalid byte" :=
  hexDecodeAux_error_msgs s.data e h

/-- The resolved last-hop restriction when its pre-validation passes. -/
def lhVal (req : SendReq) : Option (List Nat) :=
  if req.lastHopPubkey = [] then none else some (copyFill 33 req.lastHopPubkey)

/-- The resolved CLTV limit when its pre-validation passes. -/
def cltvVal (st : ServerCfg) (req : SendReq) : Nat :=
  if req.cltvLimit = 0 then st.maxOutgoingCltvExpiry else req.cltvLimit

/-- The intent the shared non-route prefix hands to the invoice/manual
branches when all of its validations pass. -/
def prefixIntent (st : ServerCfg) (req : SendReq) : Intent :=
  { zeroIntent with
    ignoreMaxOutboundAmt := req.ignoreMaxOutboundAmt
    outgoingChannelID := if req.outgoingChanId ≠ 0 then some req.outgoingChanId else none
    lastHop := lhVal req
    cltvLimit := cltvVal st req
    destCustomRecords := req.destCustomRecords }

lemma extractNonRoute_reaches (st : ServerCfg) (req : SendReq)
    (h1 : req.lastHopPubkey = [] ∨ req.lastHopPubkey.length = 33)
    (h2 : req.cltvLimit ≤ st.maxOutgoingCltvExpiry)
    (h3 : req.destCustomRecords.all (fun r => 65536 ≤ r.1) = true) :
    extractNonRoute st req { zeroIntent with ignoreMaxOutboundAmt := req.ignoreMaxOutboundAmt } =
      (if req.paymentRequest ≠ "" then extractInvoiceIntent st req (prefixIntent st req)
       else extractManualIntent st req (prefixIntent st req)) := by
  unfold extractNonRoute
  have hlh : ((if 0 < req.lastHopPubkey.length then
      match newVertexFromBytes req.lastHopPubkey with
      | .error e => .error e
      | .ok v => .ok (some v)
    else .ok none) : Except String (Option (List Nat))) = .ok (lhVal req) := by
    rcases h1 with h | h
    · simp [h, lhVal]
    · have hne : req.lastHopPubkey ≠ [] := by
        intro hc; rw [hc] at h; simp at h
      have hpos : 0 < req.lastHopPubkey.length := by
        cases hl : req.lastHopPubkey with
        | nil => exact absurd hl hne
        | cons a t => simp
      simp [hpos, newVertexFromBytes, h, lhVal, hne]
  have hcl : validateCLTVLimit req.cltvLimit st.maxOutgoingCltvExpiry = .ok (cltvVal st req) := by
    unfold validateCLTVLimit cltvVal
    by_cases h0 : req.cltvLimit = 0
    · simp [h0]
    · have : ¬st.maxOutgoingCltvExpiry < req.cltvLimit := by omega
      simp [h0, this]
  have hcr : customRecordsValidate req.destCustomRecords = .ok () := by
    simp [customRecordsValidate, h3]
  rw [hlh, hcl, hcr]
  rfl

lemma extractManualIntent_ok_mat_le (st : ServerCfg) (req : SendReq) (pi1 : Intent)
    (i : Intent) (h : extractManualIntent st req pi1 = .ok i) :
    i.mat ≤ st.maxPaymentMAtoms := by
  unfold extractManualIntent at h
  simp only [] at h
  repeat' split at h
  all_goals (try (exfalso; exact Except.noConfusion h))
  all_goals (injection h with h2; subst h2; simp_all)

lemma extractNonRoute_ok_mat_le (st : ServerCfg) (req : SendReq) (pi0 : Intent)
    (i : Intent) (hpr : req.paymentRequest = "")
    (h : extractNonRoute st req pi0 = .ok i) :
    i.mat ≤ st.maxPaymentMAtoms := by
  unfold extractNonRoute at h
  simp only [hpr] at h
  repeat' split at h
  all_goals (try (exfalso; exact Except.noConfusion h))
  all_goals (first | (exact extractManualIntent_ok_mat_le st req _ i h) | simp_all)

lemma extractPaymentIntent_manual_ok_mat_le (st : ServerCfg) (req : SendReq)
    (i : Intent) (hroute : req.route = none) (hpr : req.paymentRequest = "")
    (h : extractPaymentIntent st req = .ok i) :
    i.mat ≤ st.maxPaymentMAtoms := by
  unfold extractPaymentIntent at h
  rw [hroute] at h
  exact extractNonRoute_ok_mat_le st req _ i hpr h

lemma extractManualIntent_self (st : ServerCfg) (req : SendReq) (pi1 : Intent)
    (hdest : req.dest.length = 33)
    (hallow : req.allowSelfPayment = false)
    (hself : copyFill 33 req.dest = st.selfNode) :
    extractManualIntent st req pi1 = .error "self-payments not allowed" := by
  unfold extractManualIntent
  rw [if_pos (by simp [hdest])]
  try simp only []
  rw [if_neg (by simp [hdest])]
  try simp only []
  rw [if_pos (by simp [hallow, hself])]

lemma extractManualIntent_too_large (st : ServerCfg) (req : SendReq) (pi1 : Intent)
    (a : Nat)
    (hdest : req.dest.length = 33)
    (hself : req.allowSelfPayment = true ∨ copyFill 33 req.dest ≠ st.selfNode)
    (hamt : unmarshallAmt req.amt req.amtMAtoms = .ok a)
    (hhs : req.paymentHashString = "")
    (hbig : st.maxPaymentMAtoms < a) :
    extractManualIntent st req pi1 = .error (tooLargeMsg a st.maxPaymentMAtoms) := by
  unfold extractManualIntent
  rw [if_pos (by simp [hdest])]
  try simp only []
  rw [if_neg (by simp [hdest])]
  try simp only []
  rw [if_neg (by rcases hself with h | h <;> simp [h])]
  rw [hamt]
  try simp only []
  rw [if_neg (by simp [hhs])]
  try simp only []
  rw [if_pos hbig]

lemma extractManualIntent_eval (st : ServerCfg) (req : SendReq) (pi1 : Intent)
    (a : Nat)
    (hdest : req.dest.length = 33)
    (hself : req.allowSelfPayment = true ∨ copyFill 33 req.dest ≠ st.selfNode)
    (hamt : unmarshallAmt req.amt req.amtMAtoms = .ok a)
    (hhs : req.paymentHashString = "")
    (hle : a ≤ st.maxPaymentMAtoms) :
    extractManualIntent st req pi1 = .ok
      { pi1 with
        mat := a
        feeLimit := calculateFeeLimit req.feeLimit a
        dest := copyFill 33 req.dest
        cltvDelta := if req.finalCltvDelta ≠ 0 then req.finalCltvDelta % 65536
                     else defaultFinalCLTVDelta
        rHash := copyFill 32 req.paymentHash
        destFeatures := unmarshalFeatures req.destFeatures } := by
  unfold extractManualIntent
  rw [if_pos (by simp [hdest])]
  try simp only []
  rw [if_neg (by simp [hdest])]
  try simp only []
  rw [if_neg (by rcases hself with h | h <;> simp [h])]
  rw [hamt]
  try simp only []
  rw [if_neg (by simp [hhs])]
  try simp only []
  rw [if_neg (by omega)]

lemma extractManualIntent_eval_hex (st : ServerCfg) (req : SendReq) (pi1 : Intent)
    (a : Nat) (bs : List Nat)
    (hdest : req.dest.length = 33)
    (hself : req.allowSelfPayment = true ∨ copyFill 33 req.dest ≠ st.selfNode)
    (hamt : unmarshallAmt req.amt req.amtMAtoms = .ok a)
    (hhs : req.paymentHashString ≠ "")
    (hd : hexDecode req.paymentHashString = .ok bs)
    (hle : a ≤ st.maxPaymentMAtoms) :
    extractManualIntent st req pi1 = .ok
      { pi1 with
        mat := a
        feeLimit := calculateFeeLimit req.feeLimit a
        dest := copyFill 33 req.dest
        cltvDelta := if req.finalCltvDelta ≠ 0 then req.finalCltvDelta % 65536
                     else defaultFinalCLTVDelta
        rHash := copyFill 32 bs
        destFeatures := unmarshalFeatures req.destFeatures } := by
  unfold extractManualIntent
  rw [if_pos (by simp [hdest])]
  try simp only []
  rw [if_neg (by simp [hdest])]
  try simp only []
  rw [if_neg (by rcases hself with h | h <;> simp [h])]
  rw [hamt]
  try simp only []
  rw [if_pos hhs, hd]
  try simp only []
  rw [if_neg (by omega)]

/-- C1 (amended): the maximum-payment-size check of `extractPaymentIntent`
applies only in manual mode: when no pre-built route and no encoded invoice
are given, the amount of a successful resolution never exceeds
`maxPaymentMAtoms`, and a manual amount exceeding it yields the
too-large validation error.  (Invoice-mode and route-mode resolutions are
not checked against the maximum; see the counterexample.) -/
theorem extract_max_check_manual_mode (st : ServerCfg) (req : SendReq)
    (hroute : req.route = none) (hpr : req.paymentRequest = "") :
    (∀ i, extractPaymentIntent st req = .ok i → i.mat ≤ st.maxPaymentMAtoms) ∧
    (∀ a, (req.lastHopPubkey = [] ∨ req.lastHopPubkey.length = 33) →
      req.cltvLimit ≤ st.maxOutgoingCltvExpiry →
      req.destCustomRecords.all (fun r => 65536 ≤ r.1) = true →
      req.dest.length = 33 →
      (req.allowSelfPayment = true ∨ copyFill 33 req.dest ≠ st.selfNode) →
      req.paymentHashString = "" →
      unmarshallAmt req.amt req.amtMAtoms = .ok a →
      st.maxPaymentMAtoms < a →
      extractPaymentIntent st req = .error (tooLargeMsg a st.maxPaymentMAtoms)) := by
  constructor
  · intro i h
    exact extractPaymentIntent_manual_ok_mat_le st req i hroute hpr h
  · intro a h1 h2 h3 hdest hself hhs hamt hbig
    unfold extractPaymentIntent
    rw [hroute]
    try simp only []
    rw [extractNonRoute_reaches st req h1 h2 h3, if_neg (by simp [hpr])]
    exact extractManualIntent_too_large st req _ a hdest hself hamt hhs hbig

def w1St : ServerCfg where
  selfNode := List.replicate 33 2
  maxOutgoingCltvExpiry := 100
  maxPaymentMAtoms := 1000
  decodePayReq := fun _ => .error "unparseable"
  payReqExpired := fun _ => true

def w1Req : SendReq where
  route := none
  paymentHash := []
  paymentHashString := ""
  ignoreMaxOutboundAmt := false
  outgoingChanId := 0
  lastHopPubkey := []
  cltvLimit := 0
  destCustomRecords := []
  allowSelfPayment := false
  paymentRequest := ""
  amt := 0
  amtMAtoms := 5000
  feeLimit := none
  dest := List.replicate 33 7
  destString := ""
  finalCltvDelta := 0
  destFeatures := []

/-- Witness for C1 (amended): a concrete manual request for 5000 mAtoms
against a 1000 mAtoms maximum is rejected with the too-large error. -/
theorem extract_max_check_manual_mode_witness :
    extractPaymentIntent w1St w1Req = .error (tooLargeMsg 5000 1000) := by
  have h := (extract_max_check_manual_mode w1St w1Req rfl rfl).2 5000
    (Or.inl rfl) (by decide) (by decide) (by decide)
    (Or.inr (by decide)) rfl (by decide) (by decide)
  exact h

def c1PayReq : PayReq where
  paymentHash := List.replicate 32 5
  milliAt := none
  destination := List.replicate 33 7
  minFinalCLTVExpiry := 40
  routeHints := []
  features := none
  paymentAddr := none

def c1St : ServerCfg where
  selfNode := List.replicate 33 2
  maxOutgoingCltvExpiry := 100
  maxPaymentMAtoms := 1000
  decodePayReq := fun _ => .ok c1PayReq
  payReqExpired := fun _ => false

def c1Req : SendReq where
  route := none
  paymentHash := []
  paymentHashString := ""
  ignoreMaxOutboundAmt := false
  outgoingChanId := 0
  lastHopPubkey := []
  cltvLimit := 0
  destCustomRecords := []
  allowSelfPayment := false
  paymentRequest := "inv"
  amt := 5000
  amtMAtoms := 0
  feeLimit := none
  dest := []
  destString := ""
  finalCltvDelta := 0
  destFeatures := []

def c1Intent : Intent :=
  { zeroIntent with
    mat := 5000000
    feeLimit := 5000000
    cltvLimit := 100
    dest := List.replicate 33 7
    rHash := List.replicate 32 5
    cltvDelta := 40
    payReq := "inv" }

/-- C1 counterexample: in invoice mode the maximum-payment-size check is
never reached — paying a zero-amount invoice with a caller-supplied amount
of 5000000 mAtoms succeeds although the maximum is 1000 mAtoms. -/
theorem extract_invoice_exceeds_max_counterexample :
    extractPaymentIntent c1St c1Req = .ok c1Intent ∧
    c1St.maxPaymentMAtoms < c1Intent.mat := by decide

lemma extractInvoiceIntent_self (st : ServerCfg) (req : SendReq) (pi1 : Intent)
    (pr : PayReq) (amt : Nat)
    (hdec : st.decodePayReq req.paymentRequest = .ok pr)
    (hexp : st.payReqExpired pr = false)
    (hamt : invoiceAmt pr req = .ok amt)
    (hallow : req.allowSelfPayment = false)
    (hself : copyFill 33 pr.destination = st.selfNode) :
    extractInvoiceIntent st req pi1 = .error "self-payments not allowed" := by
  unfold extractInvoiceIntent
  rw [hdec]
  try simp only []
  rw [if_neg (by simp [hexp])]
  rw [hamt]
  try simp only []
  rw [if_neg (by simp [hallow])]
  rw [if_pos]
  exact hself

lemma extract_route_no_self_error (st : ServerCfg) (req : SendReq) (rt : Nat)
    (hroute : req.route = some rt) :
    extractPaymentIntent st req ≠ .error "self-payments not allowed" := by
  unfold extractPaymentIntent
  rw [hroute]
  try simp only []
  by_cases hs : req.paymentHashString ≠ ""
  · rw [if_pos hs]
    cases hd : hexDecode req.paymentHashString with
    | error e =>
      simp only []
      intro h
      injection h with h2
      rcases hexDecode_error_msgs req.paymentHashString e hd with he | he <;>
        (rw [he] at h2; exact absurd h2 (by decide))
    | ok bs => simp only []; intro h; exact Except.noConfusion h
  · rw [if_neg hs]
    intro h
    exact Except.noConfusion h

/-- C4: a payment request resolving to the identity of this node with the
self-payment flag unset is answered with the validation error
"self-payments not allowed" and is never dispatched to the routing engine,
both in manual mode and in invoice mode; when a pre-built route is
present, no self-payment check is performed (that error can never arise). -/
theorem extract_self_payment_rejection (st : ServerCfg) (req : SendReq) :
    (req.route = none → req.paymentRequest = "" →
      (req.lastHopPubkey = [] ∨ req.lastHopPubkey.length = 33) →
      req.cltvLimit ≤ st.maxOutgoingCltvExpiry →
      req.destCustomRecords.all (fun r => 65536 ≤ r.1) = true →
      req.dest.length = 33 →
      req.allowSelfPayment = false →
      copyFill 33 req.dest = st.selfNode →
      handlePaymentRequest st req = .errorResponse "self-payments not allowed") ∧
    (∀ pr amt, req.route = none → req.paymentRequest ≠ "" →
      (req.lastHopPubkey = [] ∨ req.lastHopPubkey.length = 33) →
      req.cltvLimit ≤ st.maxOutgoingCltvExpiry →
      req.destCustomRecords.all (fun r => 65536 ≤ r.1) = true →
      st.decodePayReq req.paymentRequest = .ok pr →
      st.payReqExpired pr = false →
      invoiceAmt pr req = .ok amt →
      req.allowSelfPayment = false →
      copyFill 33 pr.destination = st.selfNode →
      handlePaymentRequest st req = .errorResponse "self-payments not allowed") ∧
    (∀ rt, req.route = some rt →
      handlePaymentRequest st req ≠ .errorResponse "self-payments not allowed") := by
  refine ⟨?_, ?_, ?_⟩
  · intro hroute hpr h1 h2 h3 hdest hallow hself
    unfold handlePaymentRequest
    unfold extractPaymentIntent
    rw [hroute]
    try simp only []
    rw [extractNonRoute_reaches st req h1 h2 h3, if_neg (by simp [hpr])]
    rw [extractManualIntent_self st req _ hdest hallow hself]
  · intro pr amt hroute hpr h1 h2 h3 hdec hexp hamt hallow hself
    unfold handlePaymentRequest
    unfold extractPaymentIntent
    rw [hroute]
    try simp only []
    rw [extractNonRoute_reaches st req h1 h2 h3, if_pos hpr]
    rw [extractInvoiceIntent_self st req _ pr amt hdec hexp hamt hallow hself]
  · intro rt hroute h
    have hne := extract_route_no_self_error st req rt hroute
    unfold handlePaymentRequest at h
    cases he : extractPaymentIntent st req with
    | error e =>
      rw [he] at h
      simp only [PaymentReadOutcome.errorResponse.injEq] at h
      exact hne (by rw [he, h])
    | ok i =>
      rw [he] at h
      exact PaymentReadOutcome.noConfusion h

def w4St : ServerCfg where
  selfNode := List.replicate 33 2
  maxOutgoingCltvExpiry := 100
  maxPaymentMAtoms := 1000
  decodePayReq := fun _ => .error "unparseable"
  payReqExpired := fun _ => true

def w4Req : SendReq where
  route := none
  paymentHash := []
  paymentHashString := ""
  ignoreMaxOutboundAmt := false
  outgoingChanId := 0
  lastHopPubkey := []
  cltvLimit := 0
  destCustomRecords := []
  allowSelfPayment := false
  paymentRequest := ""
  amt := 1
  amtMAtoms := 0
  feeLimit := none
  dest := List.replicate 33 2
  destString := ""
  finalCltvDelta := 0
  destFeatures := []

/-- Witness for C4: a concrete manual payment to the own identity of the node
without the override is answered with the self-payment validation error. -/
theorem extract_self_payment_rejection_witness :
    handlePaymentRequest w4St w4Req = .errorResponse "self-payments not allowed" :=
  (extract_self_payment_rejection w4St w4Req).1 rfl rfl (Or.inl rfl)
    (by decide) (by decide) (by decide) rfl (by decide)

lemma extractInvoiceIntent_zero_amount (st : ServerCfg) (req : SendReq)
    (pi1 : Intent) (pr : PayReq)
    (hdec : st.decodePayReq req.paymentRequest = .ok pr)
    (hexp : st.payReqExpired pr = false)
    (hmil : pr.milliAt = none)
    (hamt0 : req.amt = 0) (hamt1 : req.amtMAtoms = 0) :
    extractInvoiceIntent st req pi1 =
      .error "amount must be specified when paying a zero amount invoice" := by
  unfold extractInvoiceIntent
  rw [hdec]
  try simp only []
  rw [if_neg (by simp [hexp])]
  have hz : invoiceAmt pr req =
      .error "amount must be specified when paying a zero amount invoice" := by
    unfold invoiceAmt
    rw [hmil]
    try simp only []
    have hu : unmarshallAmt req.amt req.amtMAtoms = .ok 0 := by
      rw [hamt0, hamt1]; decide
    rw [hu]
    rfl
  rw [hz]

/-- C5 (amended): the "amount must be specified" rejection of a zero
amount happens only when paying a zero-amount invoice (invoice mode,
invoice carries no amount, caller supplied none): there it is a
per-payment validation error and nothing is dispatched.  In manual mode
(no invoice, no route) a zero amount with an otherwise valid request is
accepted by `extractPaymentIntent`: the intent is dispatched with amount
0 and no validation error occurs. -/
theorem zero_amount_rejection_modes (st : ServerCfg) (req : SendReq) :
    (∀ pr, req.route = none → req.paymentRequest ≠ "" →
      (req.lastHopPubkey = [] ∨ req.lastHopPubkey.length = 33) →
      req.cltvLimit ≤ st.maxOutgoingCltvExpiry →
      req.destCustomRecords.all (fun r => 65536 ≤ r.1) = true →
      st.decodePayReq req.paymentRequest = .ok pr →
      st.payReqExpired pr = false →
      pr.milliAt = none → req.amt = 0 → req.amtMAtoms = 0 →
      handlePaymentRequest st req =
        .errorResponse "amount must be specified when paying a zero amount invoice") ∧
    (req.route = none → req.paymentRequest = "" →
      (req.lastHopPubkey = [] ∨ req.lastHopPubkey.length = 33) →
      req.cltvLimit ≤ st.maxOutgoingCltvExpiry →
      req.destCustomRecords.all (fun r => 65536 ≤ r.1) = true →
      req.dest.length = 33 →
      (req.allowSelfPayment = true ∨ copyFill 33 req.dest ≠ st.selfNode) →
      req.paymentHashString = "" →
      req.amt = 0 → req.amtMAtoms = 0 →
      ∃ i, handlePaymentRequest st req = .dispatched i ∧ i.mat = 0) := by
  constructor
  · intro pr hroute hpr h1 h2 h3 hdec hexp hmil ha0 ha1
    unfold handlePaymentRequest
    unfold extractPaymentIntent
    rw [hroute]
    try simp only []
    rw [extractNonRoute_reaches st req h1 h2 h3, if_pos hpr]
    rw [extractInvoiceIntent_zero_amount st req _ pr hdec hexp hmil ha0 ha1]
  · intro hroute hpr h1 h2 h3 hdest hself hhs ha0 ha1
    have hu : unmarshallAmt req.amt req.amtMAtoms = .ok 0 := by
      rw [ha0, ha1]; decide
    have hh : handlePaymentRequest st req = .dispatched
        { prefixIntent st req with
          mat := 0
          feeLimit := calculateFeeLimit req.feeLimit 0
          dest := copyFill 33 req.dest
          cltvDelta := if req.finalCltvDelta ≠ 0 then req.finalCltvDelta % 65536
                       else defaultFinalCLTVDelta
          rHash := copyFill 32 req.paymentHash
          destFeatures := unmarshalFeatures req.destFeatures } := by
      unfold handlePaymentRequest
      unfold extractPaymentIntent
      rw [hroute]
      try simp only []
      rw [extractNonRoute_reaches st req h1 h2 h3, if_neg (by simp [hpr])]
      rw [extractManualIntent_eval st req _ 0 hdest hself hu hhs (Nat.zero_le _)]
    exact ⟨_, hh, rfl⟩

def c5St : ServerCfg where
  selfNode := List.replicate 33 2
  maxOutgoingCltvExpiry := 100
  maxPaymentMAtoms := 1000
  decodePayReq := fun _ => .error "unparseable"
  payReqExpired := fun _ => true

def c5Req : SendReq where
  route := none
  paymentHash := []
  paymentHashString := ""
  ignoreMaxOutboundAmt := false
  outgoingChanId := 0
  lastHopPubkey := []
  cltvLimit := 0
  destCustomRecords := []
  allowSelfPayment := false
  paymentRequest := ""
  amt := 0
  amtMAtoms := 0
  feeLimit := none
  dest := List.replicate 33 7
  destString := ""
  finalCltvDelta := 0
  destFeatures := []

def c5Intent : Intent :=
  { zeroIntent with
    cltvLimit := 100
    dest := List.replicate 33 7
    cltvDelta := 9 }

/-- C5 counterexample: a manual payment of amount 0 with no invoice and no
route resolves successfully — no validation error is produced and the
zero-amount intent is dispatched to the routing engine. -/
theorem manual_zero_amount_accepted_counterexample :
    handlePaymentRequest c5St c5Req = .dispatched c5Intent ∧
    c5Intent.mat = 0 ∧ c5Req.paymentRequest = "" ∧ c5Req.route = none ∧
    c5Req.amt = 0 ∧ c5Req.amtMAtoms = 0 := by decide

def w5PayReq : PayReq where
  paymentHash := List.replicate 32 5
  milliAt := none
  destination := List.replicate 33 7
  minFinalCLTVExpiry := 40
  routeHints := []
  features := none
  paymentAddr := none

def w5St : ServerCfg where
  selfNode := List.replicate 33 2
  maxOutgoingCltvExpiry := 100
  maxPaymentMAtoms := 1000
  decodePayReq := fun _ => .ok w5PayReq
  payReqExpired := fun _ => false

def w5Req : SendReq :=
  { c5Req with paymentRequest := "inv" }

/-- Witness for C5 (amended): paying a concrete zero-amount invoice with
no caller-supplied amount is answered with the amount-must-be-specified
validation error. -/
theorem zero_amount_rejection_modes_witness :
    handlePaymentRequest w5St w5Req =
      .errorResponse "amount must be specified when paying a zero amount invoice" :=
  (zero_amount_rejection_modes w5St w5Req).1 w5PayReq rfl (by decide)
    (Or.inl rfl) (by decide) (by decide) rfl rfl rfl rfl rfl

/-- C6 (amended): when a pre-built route is present,
`extractPaymentIntent` returns immediately using only the payment hash
(raw bytes or hex string), the route, and the per-call
`IgnoreMaxOutboundAmt` flag (which is copied into the intent): the result
does not depend on any other request field nor on any server state (so no
amount or destination validation is performed), and on success every other
intent field keeps its zero value. -/
theorem extract_route_mode_fields (st st2 : ServerCfg) (req req2 : SendReq) :
    (∀ rt, req.route = some rt → req2.route = some rt →
      req2.paymentHash = req.paymentHash →
      req2.paymentHashString = req.paymentHashString →
      req2.ignoreMaxOutboundAmt = req.ignoreMaxOutboundAmt →
      extractPaymentIntent st req = extractPaymentIntent st2 req2) ∧
    (∀ rt i, req.route = some rt → extractPaymentIntent st req = .ok i →
      i = { zeroIntent with
            ignoreMaxOutboundAmt := req.ignoreMaxOutboundAmt
            rHash := i.rHash
            route := some rt }) := by
  constructor
  · intro rt hr hr2 hph hphs hign
    unfold extractPaymentIntent
    rw [hr, hr2, hph, hphs, hign]
  · intro rt i hr h
    unfold extractPaymentIntent at h
    rw [hr] at h
    try simp only [] at h
    by_cases hs : req.paymentHashString ≠ ""
    · rw [if_pos hs] at h
      cases hd : hexDecode req.paymentHashString with
      | error e => rw [hd] at h; exact absurd h (by simp)
      | ok bs =>
        rw [hd] at h
        injection h with h2
        subst h2
        rfl
    · rw [if_neg hs] at h
      injection h with h2
      subst h2
      rfl

def c6St : ServerCfg where
  selfNode := List.replicate 33 2
  maxOutgoingCltvExpiry := 100
  maxPaymentMAtoms := 1000
  decodePayReq := fun _ => .error "unparseable"
  payReqExpired := fun _ => true

def c6ReqA : SendReq where
  route := some 7
  paymentHash := List.replicate 32 5
  paymentHashString := ""
  ignoreMaxOutboundAmt := true
  outgoingChanId := 0
  lastHopPubkey := []
  cltvLimit := 0
  destCustomRecords := []
  allowSelfPayment := false
  paymentRequest := ""
  amt := 0
  amtMAtoms := 0
  feeLimit := none
  dest := []
  destString := ""
  finalCltvDelta := 0
  destFeatures := []

def c6ReqB : SendReq :=
  { c6ReqA with ignoreMaxOutboundAmt := false }

/-- C6 counterexample: two route-mode requests identical in payment hash
and route but differing in the `IgnoreMaxOutboundAmt` flag resolve to
different intents — the flag is used, so the hash and route are not the
only request fields consulted. -/
theorem route_mode_ignore_flag_counterexample :
    c6ReqA.route = c6ReqB.route ∧ c6ReqA.paymentHash = c6ReqB.paymentHash ∧
    c6ReqA.paymentHashString = c6ReqB.paymentHashString ∧
    extractPaymentIntent c6St c6ReqA ≠ extractPaymentIntent c6St c6ReqB := by decide

def w6St : ServerCfg where
  selfNode := List.replicate 33 9
  maxOutgoingCltvExpiry := 7
  maxPaymentMAtoms := 3
  decodePayReq := fun _ => .error "other"
  payReqExpired := fun _ => false

def w6Req : SendReq :=
  { c6ReqA with
    outgoingChanId := 11
    lastHopPubkey := [1, 2]
    cltvLimit := 999
    destCustomRecords := [(1, [2])]
    allowSelfPayment := true
    paymentRequest := "inv"
    amt := 123456789
    amtMAtoms := 0
    feeLimit := some (.fixed 1)
    dest := List.replicate 33 9
    destString := "zz"
    finalCltvDelta := 3
    destFeatures := [4] }

/-- Witness for C6 (amended): a route-mode request resolves identically
under a different server state and with every non-hash, non-route,
non-flag field changed (including fields that would fail validation in the
other modes). -/
theorem extract_route_mode_fields_witness :
    extractPaymentIntent c6St c6ReqA = extractPaymentIntent w6St w6Req :=
  (extract_route_mode_fields c6St w6St c6ReqA w6Req).1 7 rfl rfl rfl rfl rfl

/-- C9: `extractPaymentIntent` never fails because of the length of a
supplied raw or hex-decoded payment hash: in route mode (raw or
hex-decoded hash) and in manual mode, the hash bytes are copied into the
fixed 32-byte hash field — truncated past 32 bytes, zero-padded below —
and resolution succeeds regardless of the hash length. -/
theorem extract_hash_length_never_error (st : ServerCfg) (req : SendReq) :
    (∀ rt, req.route = some rt → req.paymentHashString = "" →
      extractPaymentIntent st req = .ok
        { zeroIntent with
          ignoreMaxOutboundAmt := req.ignoreMaxOutboundAmt
          rHash := req.paymentHash.take 32 ++
            List.replicate (32 - req.paymentHash.length) 0
          route := some rt } ∧
      (req.paymentHash.take 32 ++
        List.replicate (32 - req.paymentHash.length) 0).length = 32) ∧
    (∀ rt bs, req.route = some rt → req.paymentHashString ≠ "" →
      hexDecode req.paymentHashString = .ok bs →
      extractPaymentIntent st req = .ok
        { zeroIntent with
          ignoreMaxOutboundAmt := req.ignoreMaxOutboundAmt
          rHash := bs.take 32 ++ List.replicate (32 - bs.length) 0
          route := some rt } ∧
      (bs.take 32 ++ List.replicate (32 - bs.length) 0).length = 32) ∧
    (req.route = none → req.paymentRequest = "" →
      (req.lastHopPubkey = [] ∨ req.lastHopPubkey.length = 33) →
      req.cltvLimit ≤ st.maxOutgoingCltvExpiry →
      req.destCustomRecords.all (fun r => 65536 ≤ r.1) = true →
      req.dest.length = 33 →
      (req.allowSelfPayment = true ∨ copyFill 33 req.dest ≠ st.selfNode) →
      req.paymentHashString = "" →
      ∀ a, unmarshallAmt req.amt req.amtMAtoms = .ok a →
      a ≤ st.maxPaymentMAtoms →
      ∃ i, extractPaymentIntent st req = .ok i ∧
        i.rHash = req.paymentHash.take 32 ++
          List.replicate (32 - req.paymentHash.length) 0 ∧
        i.rHash.length = 32) ∧
    (req.route = none → req.paymentRequest = "" →
      (req.lastHopPubkey = [] ∨ req.lastHopPubkey.length = 33) →
      req.cltvLimit ≤ st.maxOutgoingCltvExpiry →
      req.destCustomRecords.all (fun r => 65536 ≤ r.1) = true →
      req.dest.length = 33 →
      (req.allowSelfPayment = true ∨ copyFill 33 req.dest ≠ st.selfNode) →
      req.paymentHashString ≠ "" →
      ∀ bs, hexDecode req.paymentHashString = .ok bs →
      ∀ a, unmarshallAmt req.amt req.amtMAtoms = .ok a →
      a ≤ st.maxPaymentMAtoms →
      ∃ i, extractPaymentIntent st req = .ok i ∧
        i.rHash = bs.take 32 ++ List.replicate (32 - bs.length) 0 ∧
        i.rHash.length = 32) := by
  refine ⟨?_, ?_, ?_, ?_⟩
  · intro rt hr hhs
    constructor
    · unfold extractPaymentIntent
      rw [hr]
      try simp only []
      rw [if_neg (by simp [hhs])]
      rfl
    · have h := copyFill_length 32 req.paymentHash
      simpa [copyFill] using h
  · intro rt bs hr hhs hd
    constructor
    · unfold extractPaymentIntent
      rw [hr]
      try simp only []
      rw [if_pos hhs, hd]
      rfl
    · have h := copyFill_length 32 bs
      simpa [copyFill] using h
  · intro hroute hpr h1 h2 h3 hdest hself hhs a hamt hle
    have hh : extractPaymentIntent st req = .ok
        { prefixIntent st req with
          mat := a
          feeLimit := calculateFeeLimit req.feeLimit a
          dest := copyFill 33 req.dest
          cltvDelta := if req.finalCltvDelta ≠ 0 then req.finalCltvDelta % 65536
                       else defaultFinalCLTVDelta
          rHash := copyFill 32 req.paymentHash
          destFeatures := unmarshalFeatures req.destFeatures } := by
      unfold extractPaymentIntent
      rw [hroute]
      try simp only []
      rw [extractNonRoute_reaches st req h1 h2 h3, if_neg (by simp [hpr])]
      rw [extractManualIntent_eval st req _ a hdest hself hamt hhs hle]
    refine ⟨_, hh, rfl, ?_⟩
    have h := copyFill_length 32 req.paymentHash
    simpa [copyFill] using h
  · intro hroute hpr h1 h2 h3 hdest hself hhs bs hd a hamt hle
    have hh : extractPaymentIntent st req = .ok
        { prefixIntent st req with
          mat := a
          feeLimit := calculateFeeLimit req.feeLimit a
          dest := copyFill 33 req.dest
          cltvDelta := if req.finalCltvDelta ≠ 0 then req.finalCltvDelta % 65536
                       else defaultFinalCLTVDelta
          rHash := copyFill 32 bs
          destFeatures := unmarshalFeatures req.destFeatures } := by
      unfold extractPaymentIntent
      rw [hroute]
      try simp only []
      rw [extractNonRoute_reaches st req h1 h2 h3, if_neg (by simp [hpr])]
      rw [extractManualIntent_eval_hex st req _ a bs hdest hself hamt hhs hd hle]
    refine ⟨_, hh, rfl, ?_⟩
    have h := copyFill_length 32 bs
    simpa [copyFill] using h

def w9St : ServerCfg where
  selfNode := List.replicate 33 2
  maxOutgoingCltvExpiry := 100
  maxPaymentMAtoms := 1000
  decodePayReq := fun _ => .error "unparseable"
  payReqExpired := fun _ => true

def w9Req : SendReq where
  route := none
  paymentHash := []
  paymentHashString := "0a0b"
  ignoreMaxOutboundAmt := false
  outgoingChanId := 0
  lastHopPubkey := []
  cltvLimit := 0
  destCustomRecords := []
  allowSelfPayment := false
  paymentRequest := ""
  amt := 0
  amtMAtoms := 5
  feeLimit := none
  dest := List.replicate 33 7
  destString := ""
  finalCltvDelta := 0
  destFeatures := []

/-- Witness for C9: a route-mode request with a concrete 40-byte raw
payment hash resolves successfully, with the hash truncated to its first
32 bytes; and a manual-mode request whose hash is given as the 2-byte hex
string "0a0b" also resolves successfully (hash zero-padded to 32 bytes). -/
theorem extract_hash_length_never_error_witness :
    extractPaymentIntent c6St { c6ReqA with paymentHash := List.replicate 40 6 } =
      .ok { zeroIntent with
            ignoreMaxOutboundAmt := true
            rHash := List.replicate 32 6
            route := some 7 } ∧
    (List.replicate 32 6 : List Nat).length = 32 ∧
    (extractPaymentIntent w9St w9Req).isOk = true := by
  have h := (extract_hash_length_never_error c6St
    { c6ReqA with paymentHash := List.replicate 40 6 }).1 7 rfl rfl
  have h4 := (extract_hash_length_never_error w9St w9Req).2.2.2 rfl rfl
    (Or.inl rfl) (by decide) (by decide) (by decide) (Or.inr (by decide))
    (by decide) [10, 11] (by decide) 5 (by decide) (by decide)
  obtain ⟨i, h1, _, _⟩ := h4
  exact ⟨by rw [h.1]; decide, by decide, by rw [h1]; rfl⟩

lemma checkLoop_ok_of_mem (amt : Int) (l : List OpenChannel) (c : OpenChannel)
    (hc : c ∈ l) (he : chanEligible c = true) (hcap : amt ≤ chanCapacity c) :
    ∀ mc mid, checkLoop amt l mc mid = .ok () := by
  induction l with
  | nil => cases hc
  | cons d rest ih =>
    intro mc mid
    rcases List.mem_cons.mp hc with hd | hd
    · subst hd
      unfold checkLoop
      rw [if_neg (by simp [he]), if_pos hcap]
    · unfold checkLoop
      by_cases hed : chanEligible d
      · rw [if_neg (by simp [hed])]
        by_cases hcd : amt ≤ chanCapacity d
        · rw [if_pos hcd]
        · rw [if_neg hcd]
          by_cases ht : mc < chanCapacity d
          · rw [if_pos ht]; exact ih hd _ _
          · rw [if_neg ht]; exact ih hd _ _
      · rw [if_pos (by simp [hed])]
        exact ih hd _ _

/-- C2 (amended): `checkCanSendPayment` succeeds whenever at least one
usable capacity of an eligible channel (local balance minus local reserve)
covers the amount plus the estimated per-HTLC fee, and fails with
"no open channels" whenever the open-channel list is empty and the
per-call bypass flag is unset; when the bypass flag is set it succeeds
immediately without consulting the channel list (so an empty list does
NOT produce "no open channels" in that case; see the counterexample). -/
theorem checkCanSendPayment_conditions (env : SendEnv) (p : Intent) :
    (p.ignoreMaxOutboundAmt = true → checkCanSendPayment env p = .ok ()) ∧
    (p.ignoreMaxOutboundAmt = false → env.openChannels = [] →
      checkCanSendPayment env p = .error "no open channels") ∧
    (∀ c, c ∈ env.openChannels → chanEligible c = true →
      paymentCheckAmt env p ≤ chanCapacity c →
      checkCanSendPayment env p = .ok ()) := by
  refine ⟨?_, ?_, ?_⟩
  · intro hb
    unfold checkCanSendPayment
    rw [if_pos hb]
  · intro hb hemp
    unfold checkCanSendPayment
    rw [if_neg (by simp [hb]), if_pos (by simp [hemp])]
  · intro c hc he hcap
    unfold checkCanSendPayment
    by_cases hb : p.ignoreMaxOutboundAmt
    · rw [if_pos hb]
    · rw [if_neg hb, if_neg (by
        simp only [List.isEmpty_iff]
        intro hemp
        rw [hemp] at hc
        cases hc)]
      exact checkLoop_ok_of_mem (paymentCheckAmt env p) env.openChannels c hc he hcap _ _

def c2Env : SendEnv where
  openChannels := []
  htlcFeeAtoms := 0

def c2Intent : Intent :=
  { zeroIntent with ignoreMaxOutboundAmt := true }

/-- C2 counterexample: with an empty open-channel list but the per-call
bypass flag set, `checkCanSendPayment` succeeds instead of failing with
"no open channels" — the empty-list failure is not unconditional. -/
theorem checkCanSendPayment_bypass_empty_counterexample :
    c2Env.openChannels = [] ∧
    checkCanSendPayment c2Env c2Intent = .ok () ∧
    checkCanSendPayment c2Env c2Intent ≠ .error "no open channels" := by decide

def w2Chan : OpenChannel where
  peerFound := true
  linkFound := true
  eligibleToForward := true
  localBalanceMAtoms := 900000
  chanReserveAtoms := 100
  graphChanID := 42

def w2Env : SendEnv where
  openChannels := [w2Chan]
  htlcFeeAtoms := 10

def w2Intent : Intent :=
  { zeroIntent with mat := 500000 }

/-- Witness for C2 (amended): a single eligible channel with 800 atoms of
usable capacity admits a 500-atom payment with a 10-atom HTLC fee
estimate. -/
theorem checkCanSendPayment_conditions_witness :
    checkCanSendPayment w2Env w2Intent = .ok () :=
  (checkCanSendPayment_conditions w2Env w2Intent).2.2 w2Chan (by decide)
    (by decide) (by decide)

lemma checkLoop_insufficient (amt : Int) (l : List OpenChannel) :
    ∀ (mc : Int) (mid : Nat),
    (∀ c ∈ l, chanEligible c = true → chanCapacity c < amt) →
    checkLoop amt l mc mid =
      (if (trackFold l (mc, mid)).2 = 0 then .error "no online channels found"
       else .error (notEnoughCapMsg (amt - (trackFold l (mc, mid)).1)
         (trackFold l (mc, mid)).2)) := by
  induction l with
  | nil =>
    intro mc mid _
    cases mid with
    | zero => simp [checkLoop, trackFold]
    | succ k => simp [checkLoop, trackFold]
  | cons d rest ih =>
    intro mc mid h
    have hd := h d (List.mem_cons_self d rest)
    have hrest : ∀ c ∈ rest, chanEligible c = true → chanCapacity c < amt :=
      fun c hc => h c (List.mem_cons_of_mem d hc)
    unfold checkLoop
    by_cases hed : chanEligible d
    · rw [if_neg (by simp [hed])]
      have hlt : ¬amt ≤ chanCapacity d := by
        have := hd hed
        omega
      rw [if_neg hlt]
      by_cases ht : mc < chanCapacity d
      · rw [if_pos ht, ih _ _ hrest]
        have he : trackFold (d :: rest) (mc, mid) =
            trackFold rest (chanCapacity d, d.graphChanID) := by
          simp [trackFold, hed, ht]
        rw [he]
      · rw [if_neg ht, ih _ _ hrest]
        have he : trackFold (d :: rest) (mc, mid) = trackFold rest (mc, mid) := by
          simp [trackFold, hed, ht]
        rw [he]
    · rw [if_pos (by simp [hed]), ih _ _ hrest]
      have he : trackFold (d :: rest) (mc, mid) = trackFold rest (mc, mid) := by
        simp [trackFold, hed]
      rw [he]

lemma trackFold_id_stays (l : List OpenChannel) :
    ∀ (mc : Int) (mid : Nat), (∀ c ∈ l, c.graphChanID ≠ 0) → mid ≠ 0 →
    (trackFold l (mc, mid)).2 ≠ 0 := by
  induction l with
  | nil => intro mc mid _ hm; simpa [trackFold] using hm
  | cons d rest ih =>
    intro mc mid hids hm
    have hd := hids d (List.mem_cons_self d rest)
    have hrest : ∀ c ∈ rest, c.graphChanID ≠ 0 :=
      fun c hc => hids c (List.mem_cons_of_mem d hc)
    unfold trackFold
    by_cases hc : chanEligible d = true ∧ mc < chanCapacity d
    · rw [if_pos hc]
      exact ih _ _ hrest hd
    · rw [if_neg hc]
      exact ih _ _ hrest hm

lemma trackFold_id_zero_iff (l : List OpenChannel) :
    ∀ (mc : Int), (∀ c ∈ l, c.graphChanID ≠ 0) →
    ((trackFold l (mc, 0)).2 = 0 ↔
      ∀ c ∈ l, chanEligible c = true → chanCapacity c ≤ mc) := by
  induction l with
  | nil => intro mc _; simp [trackFold]
  | cons d rest ih =>
    intro mc hids
    have hd := hids d (List.mem_cons_self d rest)
    have hrest : ∀ c ∈ rest, c.graphChanID ≠ 0 :=
      fun c hc => hids c (List.mem_cons_of_mem d hc)
    unfold trackFold
    by_cases hc : chanEligible d = true ∧ mc < chanCapacity d
    · rw [if_pos hc]
      constructor
      · intro h
        exact absurd h (trackFold_id_stays rest _ _ hrest hd)
      · intro h
        have hle := h d (List.mem_cons_self d rest) hc.1
        exact absurd hle (by omega)
    · rw [if_neg hc]
      rw [ih _ hrest]
      constructor
      · intro h
        intro c hcm hce
        rcases List.mem_cons.mp hcm with hcd | hcr
        · subst hcd
          rcases Decidable.not_and_iff_or_not.mp hc with h1 | h2
          · exact absurd hce h1
          · omega
        · exact h c hcr hce
      · intro h c hcr hce
        exact h c (List.mem_cons_of_mem d hcr) hce

lemma trackFold_fst_max (l : List OpenChannel) :
    ∀ (mc : Int) (mid : Nat),
    (trackFold l (mc, mid)).1 =
      ((l.filter (fun c => chanEligible c)).map chanCapacity).foldl max mc := by
  induction l with
  | nil => intro mc mid; simp [trackFold]
  | cons d rest ih =>
    intro mc mid
    unfold trackFold
    by_cases hed : chanEligible d
    · by_cases ht : mc < chanCapacity d
      · rw [if_pos ⟨hed, ht⟩, ih]
        simp only [List.filter_cons, hed, if_true, List.map_cons, List.foldl_cons]
        have hm : max mc (chanCapacity d) = chanCapacity d := by omega
        rw [hm]
      · rw [if_neg (by intro hcon; exact ht hcon.2), ih]
        simp only [List.filter_cons, hed, if_true, List.map_cons, List.foldl_cons]
        have hm : max mc (chanCapacity d) = mc := by omega
        rw [hm]
    · rw [if_neg (by intro hcon; exact hed hcon.1), ih]
      simp [List.filter_cons, hed]

lemma trackFold_attained (l : List OpenChannel) :
    ∀ (mc : Int) (mid : Nat),
    trackFold l (mc, mid) = (mc, mid) ∨
    ∃ c, c ∈ l ∧ chanEligible c = true ∧
      chanCapacity c = (trackFold l (mc, mid)).1 ∧
      c.graphChanID = (trackFold l (mc, mid)).2 := by
  induction l with
  | nil => intro mc mid; exact Or.inl rfl
  | cons d rest ih =>
    intro mc mid
    unfold trackFold
    by_cases hc : chanEligible d = true ∧ mc < chanCapacity d
    · rw [if_pos hc]
      rcases ih (chanCapacity d) d.graphChanID with h | ⟨c, hcm, hce, hcc, hci⟩
      · refine Or.inr ⟨d, List.mem_cons_self d rest, hc.1, ?_, ?_⟩
        · rw [h]
        · rw [h]
      · exact Or.inr ⟨c, List.mem_cons_of_mem d hcm, hce, hcc, hci⟩
    · rw [if_neg hc]
      rcases ih mc mid with h | ⟨c, hcm, hce, hcc, hci⟩
      · exact Or.inl h
      · exact Or.inr ⟨c, List.mem_cons_of_mem d hcm, hce, hcc, hci⟩

lemma notEnoughCapMsg_ne_noOnline (m : Int) (n : Nat) :
    notEnoughCapMsg m n ≠ "no online channels found" := by
  intro h
  have hlen := congrArg String.length h
  rw [notEnoughCapMsg] at hlen
  simp only [String.length_append] at hlen
  have h1 : ("not enough outbound capacity (missing " : String).length = 38 := by decide
  have h2 : (" atoms in channel " : String).length = 18 := by decide
  have h3 : (")" : String).length = 1 := by decide
  have h4 : ("no online channels found" : String).length = 24 := by decide
  omega

/-- C3 (amended): when no eligible channel has sufficient capacity (and
assuming the channel graph knows every channel under a nonzero
identifier), `checkCanSendPayment` returns "no online channels found"
exactly when no eligible channel has strictly positive usable capacity —
an eligible channel whose usable capacity is zero or negative still
produces this error (see the counterexample); otherwise it returns the
diagnostic naming the shortfall (amount plus fee minus the largest
eligible usable capacity) and the graph identifier of an eligible channel
attaining that largest capacity. -/
theorem checkCanSendPayment_no_online_diagnostic (env : SendEnv) (p : Intent)
    (hb : p.ignoreMaxOutboundAmt = false)
    (hne : env.openChannels ≠ [])
    (hids : ∀ c ∈ env.openChannels, c.graphChanID ≠ 0)
    (hins : ∀ c ∈ env.openChannels, chanEligible c = true →
      chanCapacity c < paymentCheckAmt env p) :
    (checkCanSendPayment env p = .error "no online channels found" ↔
      ∀ c ∈ env.openChannels, chanEligible c = true → chanCapacity c ≤ 0) ∧
    ((∃ c ∈ env.openChannels, chanEligible c = true ∧ 0 < chanCapacity c) →
      checkCanSendPayment env p =
        .error (notEnoughCapMsg
          (paymentCheckAmt env p - maxEligCap env.openChannels)
          (trackFold env.openChannels (0, 0)).2) ∧
      ∃ c ∈ env.openChannels, chanEligible c = true ∧
        chanCapacity c = maxEligCap env.openChannels ∧
        c.graphChanID = (trackFold env.openChannels (0, 0)).2) := by
  have hred : checkCanSendPayment env p =
      checkLoop (paymentCheckAmt env p) env.openChannels 0 0 := by
    unfold checkCanSendPayment
    rw [if_neg (by simp [hb]), if_neg (by simp [List.isEmpty_iff, hne])]
  have hchar := checkLoop_insufficient (paymentCheckAmt env p) env.openChannels 0 0 hins
  have hiff := trackFold_id_zero_iff env.openChannels 0 hids
  have hfst : (trackFold env.openChannels (0, 0)).1 = maxEligCap env.openChannels := by
    rw [trackFold_fst_max]
    rfl
  constructor
  · by_cases ht : (trackFold env.openChannels (0, 0)).2 = 0
    · rw [hred, hchar, if_pos ht]
      exact ⟨fun _ => hiff.mp ht, fun _ => rfl⟩
    · rw [hred, hchar, if_neg ht]
      constructor
      · intro h
        injection h with h2
        exact absurd h2 (notEnoughCapMsg_ne_noOnline _ _)
      · intro h
        exact absurd (hiff.mpr h) ht
  · intro ⟨c, hcm, hce, hcp⟩
    have ht : (trackFold env.openChannels (0, 0)).2 ≠ 0 := by
      intro h0
      have := hiff.mp h0 c hcm hce
      omega
    constructor
    · rw [hred, hchar, if_neg ht, hfst]
    · rcases trackFold_attained env.openChannels 0 0 with h | ⟨d, hdm, hde, hdc, hdi⟩
      · rw [h] at ht
        exact absurd rfl ht
      · exact ⟨d, hdm, hde, by rw [← hfst, ← hdc], hdi⟩

def c3Chan : OpenChannel where
  peerFound := true
  linkFound := true
  eligibleToForward := true
  localBalanceMAtoms := 0
  chanReserveAtoms := 0
  graphChanID := 5

def c3Env : SendEnv where
  openChannels := [c3Chan]
  htlcFeeAtoms := 0

def c3Intent : Intent :=
  { zeroIntent with mat := 1000 }

/-- C3 counterexample: a channel that is fully eligible (peer connected,
link registered and eligible to forward) but has zero usable capacity
still makes `checkCanSendPayment` report "no online channels found", so
that error does not characterise "no channel at all was eligible". -/
theorem checkCanSendPayment_zero_capacity_counterexample :
    chanEligible c3Chan = true ∧ c3Chan ∈ c3Env.openChannels ∧
    checkCanSendPayment c3Env c3Intent = .error "no online channels found" := by
  decide

def w3ChanSmall : OpenChannel where
  peerFound := true
  linkFound := true
  eligibleToForward := true
  localBalanceMAtoms := 200000
  chanReserveAtoms := 0
  graphChanID := 8

def w3ChanBig : OpenChannel where
  peerFound := true
  linkFound := true
  eligibleToForward := true
  localBalanceMAtoms := 300000
  chanReserveAtoms := 0
  graphChanID := 9

def w3Env : SendEnv where
  openChannels := [w3ChanSmall, w3ChanBig]
  htlcFeeAtoms := 10

def w3Intent : Intent :=
  { zeroIntent with mat := 1000000 }

/-- Witness for C3 (amended): with two eligible but insufficient channels
of 200 and 300 atoms against a requested 1010 atoms, the diagnostic names
the 710-atom shortfall and channel 9, the largest-capacity channel. -/
theorem checkCanSendPayment_no_online_diagnostic_witness :
    checkCanSendPayment w3Env w3Intent = .error (notEnoughCapMsg 710 9) ∧
    chanCapacity w3ChanBig = maxEligCap w3Env.openChannels ∧
    w3ChanBig.graphChanID = (trackFold w3Env.openChannels (0, 0)).2 := by
  have h := (checkCanSendPayment_no_online_diagnostic w3Env w3Intent rfl
    (by decide) (by decide) (by decide)).2 ⟨w3ChanSmall, by decide, by decide, by decide⟩
  refine ⟨?_, by decide, by decide⟩
  have h1 := h.1
  rw [h1]
  decide

lemma closeRelayLoop_shape (ctxid : List Nat) :
    ∀ (events : List CloseRelayEv) (queue : List CloseUpd)
      (sent : List CloseStatusUpdate),
    ((sent = [] ∧ ∃ n, queue = CloseUpd.pending ctxid 0 ::
        List.replicate n (CloseUpd.chanClose ctxid true)) ∨
     (sent = [CloseStatusUpdate.closePending ctxid 0] ∧
      ∃ n, queue = List.replicate n (CloseUpd.chanClose ctxid true))) →
    ((closeRelayLoop ctxid events queue sent).1 = [] ∧
      (closeRelayLoop ctxid events queue sent).2 ≠ RelayExit.exitTerminal) ∨
    ((closeRelayLoop ctxid events queue sent).1 =
        [CloseStatusUpdate.closePending ctxid 0] ∧
      (closeRelayLoop ctxid events queue sent).2 ≠ RelayExit.exitTerminal) ∨
    ((closeRelayLoop ctxid events queue sent).1 =
        [CloseStatusUpdate.closePending ctxid 0, CloseStatusUpdate.chanCloseU ctxid] ∧
      (closeRelayLoop ctxid events queue sent).2 = RelayExit.exitTerminal) := by
  intro events
  induction events with
  | nil =>
    intro queue sent hinv
    rcases hinv with ⟨hs, _⟩ | ⟨hs, _⟩
    · exact Or.inl ⟨by rw [closeRelayLoop, hs], by rw [closeRelayLoop]; simp⟩
    · exact Or.inr (Or.inl ⟨by rw [closeRelayLoop, hs], by rw [closeRelayLoop]; simp⟩)
  | cons e rest ih =>
    intro queue sent hinv
    cases e with
    | errArrives msg =>
      rcases hinv with ⟨hs, _⟩ | ⟨hs, _⟩
      · exact Or.inl ⟨by rw [closeRelayLoop, hs], by rw [closeRelayLoop]; simp⟩
      · exact Or.inr (Or.inl ⟨by rw [closeRelayLoop, hs], by rw [closeRelayLoop]; simp⟩)
    | quitFires =>
      rcases hinv with ⟨hs, _⟩ | ⟨hs, _⟩
      · exact Or.inl ⟨by rw [closeRelayLoop, hs], by rw [closeRelayLoop]; simp⟩
      · exact Or.inr (Or.inl ⟨by rw [closeRelayLoop, hs], by rw [closeRelayLoop]; simp⟩)
    | confirmCallback =>
      have hstep : closeRelayLoop ctxid (CloseRelayEv.confirmCallback :: rest) queue sent =
          closeRelayLoop ctxid rest (queue ++ [CloseUpd.chanClose ctxid true]) sent := by
        rw [closeRelayLoop]
      rw [hstep]
      apply ih
      rcases hinv with ⟨hs, n, hq⟩ | ⟨hs, n, hq⟩
      · refine Or.inl ⟨hs, n + 1, ?_⟩
        rw [hq, List.replicate_succ']
        rfl
      · refine Or.inr ⟨hs, n + 1, ?_⟩
        rw [hq, List.replicate_succ']
    | updReady sendOk =>
      cases hq : queue with
      | nil =>
        have hstep : closeRelayLoop ctxid (CloseRelayEv.updReady sendOk :: rest) [] sent =
            closeRelayLoop ctxid rest [] sent := by
          rw [closeRelayLoop]
        rw [hstep]
        apply ih
        rcases hinv with ⟨hs, n, hqq⟩ | ⟨hs, n, hqq⟩
        · rw [hq] at hqq
          exact absurd hqq.symm (List.cons_ne_nil _ _)
        · exact Or.inr ⟨hs, 0, rfl⟩
      | cons u q =>
        rcases hinv with ⟨hs, n, hqq⟩ | ⟨hs, n, hqq⟩
        · rw [hq] at hqq
          injection hqq with hu hqr
          subst hu
          cases hsk : sendOk with
          | true =>
            have hstep : closeRelayLoop ctxid (CloseRelayEv.updReady true :: rest)
                (CloseUpd.pending ctxid 0 :: q) sent =
                closeRelayLoop ctxid rest q
                  (sent ++ [CloseStatusUpdate.closePending ctxid 0]) := by
              rw [closeRelayLoop]
              try rfl
            rw [hstep]
            apply ih
            exact Or.inr ⟨by rw [hs]; rfl, n, hqr.symm ▸ rfl⟩
          | false =>
            have hstep : closeRelayLoop ctxid (CloseRelayEv.updReady false :: rest)
                (CloseUpd.pending ctxid 0 :: q) sent = (sent, RelayExit.exitSendErr) := by
              rw [closeRelayLoop]
              try rfl
            rw [hstep]
            exact Or.inl ⟨hs, by simp⟩
        · rw [hq] at hqq
          cases n with
          | zero => exact absurd hqq (by simp)
          | succ m =>
            rw [List.replicate_succ] at hqq
            injection hqq with hu hqr
            subst hu
            cases hsk : sendOk with
            | true =>
              have hstep : closeRelayLoop ctxid (CloseRelayEv.updReady true :: rest)
                  (CloseUpd.chanClose ctxid true :: q) sent =
                  (sent ++ [CloseStatusUpdate.chanCloseU ctxid], RelayExit.exitTerminal) := by
                rw [closeRelayLoop]
                try rfl
              try rfl
              rw [hstep]
              exact Or.inr (Or.inr ⟨by rw [hs]; rfl, rfl⟩)
            | false =>
              have hstep : closeRelayLoop ctxid (CloseRelayEv.updReady false :: rest)
                  (CloseUpd.chanClose ctxid true :: q) sent = (sent, RelayExit.exitSendErr) := by
                rw [closeRelayLoop]
                try rfl
              try rfl
              rw [hstep]
              exact Or.inr (Or.inl ⟨hs, by simp⟩)

/-- C7: in every execution of the force-close relay loop, a pending
update carrying the closing transaction id is delivered on the update
stream strictly before any terminal channel-close update (a terminal
update can only ever be the second update sent, after the pending one);
and whenever the process-wide quit signal ends the loop, the call returns
without error and no terminal update was emitted. -/
theorem forceClose_pending_before_terminal (ctxid : List Nat)
    (events : List CloseRelayEv) :
    (∀ t, CloseStatusUpdate.chanCloseU t ∈ (forceCloseRelay ctxid events).1 →
      (forceCloseRelay ctxid events).1 =
        [CloseStatusUpdate.closePending ctxid 0, CloseStatusUpdate.chanCloseU ctxid]) ∧
    ((forceCloseRelay ctxid events).2 = RelayExit.exitQuit →
      relayReturn (forceCloseRelay ctxid events).2 = some none ∧
      ∀ t, CloseStatusUpdate.chanCloseU t ∉ (forceCloseRelay ctxid events).1) := by
  have hshape := closeRelayLoop_shape ctxid events [CloseUpd.pending ctxid 0] []
    (Or.inl ⟨rfl, 0, rfl⟩)
  unfold forceCloseRelay
  constructor
  · intro t hmem
    rcases hshape with ⟨h1, _⟩ | ⟨h1, _⟩ | ⟨h1, _⟩
    · rw [h1] at hmem
      cases hmem
    · rw [h1] at hmem
      simp at hmem
    · exact h1
  · intro hquit
    rcases hshape with ⟨h1, _⟩ | ⟨h1, _⟩ | ⟨h1, h2⟩
    · refine ⟨by rw [hquit]; rfl, ?_⟩
      intro t
      rw [h1]
      simp
    · refine ⟨by rw [hquit]; rfl, ?_⟩
      intro t
      rw [h1]
      simp
    · rw [hquit] at h2
      cases h2

/-- Witness for C7: on the concrete trace where the quit signal fires
first, the force-close relay exits the quit arm, returns nil, and has
emitted no terminal update. -/
theorem forceClose_pending_before_terminal_witness :
    (forceCloseRelay [1] [CloseRelayEv.quitFires]).2 = RelayExit.exitQuit ∧
    relayReturn (forceCloseRelay [1] [CloseRelayEv.quitFires]).2 = some none ∧
    CloseStatusUpdate.chanCloseU [1] ∉ (forceCloseRelay [1] [CloseRelayEv.quitFires]).1 := by
  have h := (forceClose_pending_before_terminal [1] [CloseRelayEv.quitFires]).2 (by decide)
  exact ⟨by decide, h.1, h.2 [1]⟩

/-- C8: a `demultiplexReq` decide call returns the reject decision
(`false`) whenever no client reply arrives — on the acceptor timeout, on
stream teardown, and on the process-wide quit, in both of its waiting
stages (enqueue and response wait) — and the acceptor timeout defaults to
15 seconds (`15 * time.Second`). -/
theorem demultiplexReq_reject_without_reply :
    (∀ (e1 : EnqueueEv) (e2 : AwaitEv), (∀ b, e2 ≠ AwaitEv.replied b) →
      demultiplexReq e1 e2 = false) ∧
    (∀ e2 : AwaitEv, demultiplexReq EnqueueEv.timedOut e2 = false ∧
      demultiplexReq EnqueueEv.streamDone e2 = false ∧
      demultiplexReq EnqueueEv.serverQuit e2 = false) ∧
    (∀ b : Bool, demultiplexReq EnqueueEv.enqueued (AwaitEv.replied b) = b) ∧
    defaultAcceptorTimeout = 15 * timeSecond := by
  refine ⟨?_, ?_, ?_, rfl⟩
  · intro e1 e2 h
    cases e1 <;> cases e2 <;> first
      | rfl
      | exact absurd rfl (h _)
  · intro e2
    exact ⟨rfl, rfl, rfl⟩
  · intro b
    rfl

/-- Witness for C8: a concrete decide call whose response wait ends with
the timeout returns the reject decision. -/
theorem demultiplexReq_reject_without_reply_witness :
    demultiplexReq EnqueueEv.enqueued AwaitEv.timedOut = false :=
  demultiplexReq_reject_without_reply.1 EnqueueEv.enqueued AwaitEv.timedOut
    (fun _ h => AwaitEv.noConfusion h)

/-- C10: when the process-wide quit signal fires while `OpenChannelSync`
waits for the first funding update or error, the call returns a nil
`ChannelPoint` and a nil error — the caller observes neither a result nor
an error. -/
theorem openChannelSync_quit_nil_nil :
    openChannelSyncSelect OpenSyncEv.quitFired = (none, none) := rfl
